import Mathlib

/-!
Shallow embedding of the 2D aerodynamic estimation engine of the
Wind-Tunnel Aero Tester repository (server physics engine, file
`physics/engine.js`, plus the `/api/simulate` route).

JavaScript numbers are modelled as real numbers (exact arithmetic);
display rounding (`toFixed` / `parseFloat`) is formatting only and is not
modelled.  A JavaScript object property that may be absent (`undefined`)
is modelled with `Option`.  A thrown `TypeError` is modelled by the
solver returning `none`.
-/

open scoped Classical

noncomputable section

namespace Aero

/-- A 2D point `[x, y]`. -/
abbrev Point : Type := ℝ × ℝ

/-- `getCentroid(points)`: arithmetic mean of the points; `(0,0)` for the
empty list. -/
def getCentroid (points : List Point) : Point :=
  if points.length = 0 then (0, 0)
  else ((points.map Prod.fst).sum / points.length,
        (points.map Prod.snd).sum / points.length)

/-- The rotation about `cen` applied to each point inside
`rotatePoints`: `cen + R(p - cen)` with rotation coefficients `c = cos`,
`s = sin`. -/
def affRot (cen : Point) (c s : ℝ) (p : Point) : Point :=
  (cen.1 + ((p.1 - cen.1) * c - (p.2 - cen.2) * s),
   cen.2 + ((p.1 - cen.1) * s + (p.2 - cen.2) * c))

/-- `rotatePoints(points, angleDegrees)`: rotate every point about the
centroid by `angleDegrees` (converted to radians). -/
def rotatePoints (points : List Point) (angleDegrees : ℝ) : List Point :=
  let angleRad := angleDegrees * Real.pi / 180
  points.map (affRot (getCentroid points) (Real.cos angleRad) (Real.sin angleRad))

/-- The bounding-box record produced by `getBoundingBox`. -/
structure Bounds where
  width : ℝ
  height : ℝ
  minX : ℝ
  maxX : ℝ
  minY : ℝ
  maxY : ℝ

/-- `getBoundingBox(points)`: per-axis min/max linear scan.  The JS code
starts the scan from `±Infinity`; for the nonempty point lists the engine
receives this is the same as folding `min`/`max` starting from the first
element, which is how we render it over `ℝ`. -/
def getBoundingBox (points : List Point) : Bounds :=
  let xs := points.map Prod.fst
  let ys := points.map Prod.snd
  let minX := xs.foldl min (xs.headD 0)
  let maxX := xs.foldl max (xs.headD 0)
  let minY := ys.foldl min (ys.headD 0)
  let maxY := ys.foldl max (ys.headD 0)
  ⟨maxX - minX, maxY - minY, minX, maxX, minY, maxY⟩

/-- One term of the shoelace sum: `x_a * y_b - x_b * y_a`. -/
def cross (a b : Point) : ℝ := a.1 * b.2 - b.1 * a.2

/-- The signed shoelace accumulator of `calculatePolygonArea`:
`for i in 0..n-1: area += x_i*y_{(i+1)%n} - x_{(i+1)%n}*y_i`. -/
def shoelaceSum (points : List Point) : ℝ :=
  ∑ i ∈ Finset.range points.length,
    cross (points.getD i (0, 0)) (points.getD ((i + 1) % points.length) (0, 0))

/-- `calculatePolygonArea(points)`: absolute shoelace sum over two. -/
def calculatePolygonArea (points : List Point) : ℝ :=
  |shoelaceSum points| / 2

/-- Sum of `cross` over adjacent pairs of a list (no wrap-around); the
open-path part of the shoelace accumulator, used to reason about
`shoelaceSum`. -/
def pairSum : List Point → ℝ
  | [] => 0
  | [_] => 0
  | a :: b :: l => cross a b + pairSum (b :: l)

/-- `calculateReynolds(velocity, characteristicLength, density, mu)`. -/
def calculateReynolds (velocity characteristicLength density dynamicViscosity : ℝ) : ℝ :=
  density * velocity * characteristicLength / dynamicViscosity

/-- The shape classification strings of `classifyShape`. -/
inductive ShapeType where
  | circular
  | rectangular
  | streamlined
  | bluff
deriving DecidableEq, Repr

/-- `classifyShape(points, bounds, solidity)`: first matching bucket of
circular / rectangular / streamlined, with bluff as the fallback. -/
def classifyShape (points : List Point) (bounds : Bounds) (solidity : ℝ) : ShapeType :=
  let aspectRatio := bounds.width / bounds.height
  if solidity > 0.70 ∧ solidity < 0.82 ∧ aspectRatio > 0.8 ∧ aspectRatio < 1.25 then
    ShapeType.circular
  else if solidity > 0.85 ∧ points.length = 4 then
    ShapeType.rectangular
  else if aspectRatio > 3.0 ∨ (aspectRatio < 0.33 ∧ aspectRatio > 0) then
    ShapeType.streamlined
  else
    ShapeType.bluff

/-- The record returned by `analyzeGeometry`.  The JS non-degenerate
return carries a `camber` property and no `maxCamber` property; the
degenerate (`chordLength == 0`) return carries `maxCamber` and no
`camber`.  An absent property is `none`. -/
structure GeomRecord where
  camber : Option ℝ
  maxCamber : Option ℝ
  thickness : ℝ
  isSymmetric : Prop
  teAngle : ℝ
  leRadius : ℝ

/-- The LE/TE scan of `analyzeGeometry`: starting from `points[0]` with
distance `Infinity` (so the first iteration always updates, i.e. the scan
is a fold starting from the head), keep the first point whose `|x - x0|`
is strictly smaller than the best so far. -/
def findClosestX (points : List Point) (x0 : ℝ) : Point :=
  match points with
  | [] => (0, 0)
  | p :: rest =>
      (rest.foldl (fun acc q => if |q.1 - x0| < acc.1 then (|q.1 - x0|, q) else acc)
        (|p.1 - x0|, p)).2

/-- JS `Math.atan2(y, x)` over the reals (signed zeros are not
distinguishable in `ℝ`; `atan2 0 0 = 0` as in JS). -/
def atan2 (y x : ℝ) : ℝ :=
  if x > 0 then Real.arctan (y / x)
  else if x < 0 then
    (if y ≥ 0 then Real.arctan (y / x) + Real.pi else Real.arctan (y / x) - Real.pi)
  else if y > 0 then Real.pi / 2
  else if y < 0 then -(Real.pi / 2)
  else 0

/-- `points.indexOf(p)`: index of the first occurrence of `p`.  The JS
call compares the scanned winner by reference; since the scan keeps the
first point attaining the minimal distance, the first structurally equal
element is that same element. -/
def indexOfPoint (points : List Point) (p : Point) : ℕ :=
  points.findIdx (fun q => decide (q = p))

/-- The accumulator of the per-vertex projection scan in
`analyzeGeometry` (upperArea, lowerArea, sumY, maxUpper, maxLower). -/
structure ScanState where
  upperArea : ℝ
  lowerArea : ℝ
  sumY : ℝ
  maxUpper : ℝ
  maxLower : ℝ

/-- One iteration of the projection scan.  `dist` is the signed distance
of `p` from the chord through `pLE` with unit normal `(nx, ny)`.  Note
the faithful rendering of the JS `else` branch: it assigns
`maxLower = dist` (the signed value), not `Math.abs(dist)`. -/
def scanStep (pLE : Point) (nx ny : ℝ) (st : ScanState) (p : Point) : ScanState :=
  let dist := (p.1 - pLE.1) * nx + (p.2 - pLE.2) * ny
  if dist > 0 then
    { st with
      upperArea := st.upperArea + dist
      sumY := st.sumY + dist
      maxUpper := if dist > st.maxUpper then dist else st.maxUpper }
  else
    { st with
      lowerArea := st.lowerArea + |dist|
      sumY := st.sumY + dist
      maxLower := if |dist| > st.maxLower then dist else st.maxLower }

/-- The chord-normal projection scan of `analyzeGeometry`: builds the
unit chord vector LE→TE, its normal, and folds `scanStep` over all
points. -/
def chordScan (points : List Point) (pLE pTE : Point) : ScanState :=
  let dy := pTE.2 - pLE.2
  let dx := pTE.1 - pLE.1
  let len := Real.sqrt (dx * dx + dy * dy)
  let ux := dx / len
  let uy := dy / len
  let nx := -uy
  let ny := ux
  points.foldl (scanStep pLE nx ny) ⟨0, 0, 0, 0, 0⟩

/-- Trailing-edge angle computation of `analyzeGeometry`: the angle
between the two polygon edges adjacent to the TE vertex, folded into
`[0, 180]` degrees. -/
def teAngleOf (points : List Point) (pTE : Point) : ℝ :=
  let pTEIndex := indexOfPoint points pTE
  let n := points.length
  let prev := points.getD ((pTEIndex + n - 1) % n) (0, 0)
  let next := points.getD ((pTEIndex + 1) % n) (0, 0)
  let angle1 := atan2 (prev.2 - pTE.2) (prev.1 - pTE.1)
  let angle2 := atan2 (next.2 - pTE.2) (next.1 - pTE.1)
  let teAngleRaw := |(angle1 - angle2) * 180 / Real.pi|
  if teAngleRaw > 180 then 360 - teAngleRaw else teAngleRaw

/-- Leading-edge radius heuristic of `analyzeGeometry`: half the
distance between LE's neighbours, normalized by chord length. -/
def leRadiusOf (points : List Point) (pLE : Point) (chordLength : ℝ) : ℝ :=
  let pLEIndex := indexOfPoint points pLE
  let n := points.length
  let prevLE := points.getD ((pLEIndex + n - 1) % n) (0, 0)
  let nextLE := points.getD ((pLEIndex + 1) % n) (0, 0)
  let leWidth := Real.sqrt ((prevLE.1 - nextLE.1) ^ 2 + (prevLE.2 - nextLE.2) ^ 2)
  leWidth / (2 * chordLength)

/-- `analyzeGeometry(points, bounds)`: camber, thickness ratio, symmetry
flag, trailing-edge angle and leading-edge radius of the polygon. -/
def analyzeGeometry (points : List Point) (bounds : Bounds) : GeomRecord :=
  let minX := bounds.minX
  let maxX := bounds.maxX
  let chordLength := maxX - minX
  if chordLength = 0 then
    { camber := none, maxCamber := some 0, thickness := 0,
      isSymmetric := True, teAngle := 180, leRadius := 0 }
  else
    let pLE := findClosestX points minX
    let pTE := findClosestX points maxX
    let st := chordScan points pLE pTE
    let avgDeviation := st.sumY / points.length
    let normalizedCamber := -avgDeviation / chordLength
    let thicknessRatio := bounds.height / chordLength
    let areaRatio :=
      if st.upperArea > 0 ∧ st.lowerArea > 0 then
        min st.upperArea st.lowerArea / max st.upperArea st.lowerArea
      else 0
    let maxThickRatio :=
      if st.maxUpper > 0 ∧ st.maxLower > 0 then
        min st.maxUpper st.maxLower / max st.maxUpper st.maxLower
      else 0
    let isSym := areaRatio > 0.85 ∧ maxThickRatio > 0.85 ∧ |normalizedCamber| < 0.02
    { camber := some normalizedCamber, maxCamber := none, thickness := thicknessRatio,
      isSymmetric := isSym, teAngle := teAngleOf points pTE,
      leRadius := leRadiusOf points pLE chordLength }

/-- The `isSymmetric` read in `calculateDragCoefficient` after
`const { isSymmetric, teAngle, leRadius } = geometry || {}`: `undefined`
(hence falsy) when the `geometry` argument is not supplied. -/
def geomIsSymmetric (geometry : Option GeomRecord) : Prop :=
  match geometry with
  | some g => g.isSymmetric
  | none => False

/-- `teAngle > 20` as evaluated in `calculateDragCoefficient`:
`undefined > 20` is false when `geometry` is not supplied. -/
def geomTeAngleGt20 (geometry : Option GeomRecord) : Prop :=
  match geometry with
  | some g => g.teAngle > 20
  | none => False

/-- The `teAngle` value used inside the `teAngle > 20` branch (only ever
read when the property is present). -/
def geomTeAngle (geometry : Option GeomRecord) : ℝ :=
  match geometry with
  | some g => g.teAngle
  | none => 0

/-- `calculateDragCoefficient(shapeType, reynolds, aspectRatio, solidity,
angleDegrees, geometry)`: shape- and Reynolds-regime-dependent drag
coefficient, clamped to `[0.01, 2.5]` at the end. -/
def calculateDragCoefficient (shapeType : ShapeType)
    (reynolds aspectRatio solidity angleDegrees : ℝ)
    (geometry : Option GeomRecord) : ℝ :=
  let cd :=
    match shapeType with
    | ShapeType.circular =>
        let cd0 :=
          if reynolds < 1 then max (24 / reynolds) 2.0
          else if reynolds < 2e5 then 1.17
          else if reynolds < 5e5 then
            let transitionRel := (reynolds - 3.5e5) / 50000
            let sig := 1 / (1 + Real.exp transitionRel)
            0.3 + (1.2 - 0.3) * sig
          else 0.35 + reynolds / 1e7 * 0.1
        let angleRadCircular := |angleDegrees * Real.pi / 180|
        if angleRadCircular > 0.1 then cd0 * (1.0 + 0.05 * Real.sin angleRadCircular)
        else cd0
    | ShapeType.rectangular =>
        let effectiveAR := max aspectRatio (1 / aspectRatio)
        let cd0 := 2.0 / Real.sqrt effectiveAR
        let cd1 := max 1.0 (min cd0 2.1)
        if reynolds < 1e4 then cd1 * 1.1 else cd1
    | ShapeType.streamlined =>
        let finenessRatioStreamlined := max aspectRatio (1 / aspectRatio)
        let cd0 := 0.05 + 0.3 / Real.sqrt finenessRatioStreamlined
        let cd1 :=
          if geomIsSymmetric geometry ∧ |angleDegrees| < 5 then cd0 * 0.8 else cd0
        let cd2 :=
          if geomTeAngleGt20 geometry then
            cd1 + 0.1 * ((geomTeAngle geometry - 20) / 70)
          else cd1
        let angleRadStreamlined := |angleDegrees * Real.pi / 180|
        if angleRadStreamlined > Real.pi / 12 then
          cd2 * (1.0 + 1.2 * Real.sin angleRadStreamlined ^ 2)
        else cd2
    | ShapeType.bluff =>
        let finenessRatioBluff := max aspectRatio (1 / aspectRatio)
        let cd0 := (1.0 + 0.5 / finenessRatioBluff) * (0.85 + 0.15 * solidity)
        if reynolds < 1e4 then cd0 * 1.05 else cd0
  max 0.01 (min cd 2.5)

/-- The `camber` read in `calculateLiftCoefficient`
(`geometry ? geometry.camber : 0`).  The only record whose `camber`
property is absent is the degenerate one; every use of `camber` below the
early returns is then dead in the solver (it throws on that record), so
the absent property is rendered as `0`. -/
def liftCamber (geometry : Option GeomRecord) : ℝ :=
  match geometry with
  | some g => g.camber.getD 0
  | none => 0

/-- `geometry ? geometry.thickness : 0.12`. -/
def liftThickness (geometry : Option GeomRecord) : ℝ :=
  match geometry with
  | some g => g.thickness
  | none => 0.12

/-- `geometry ? geometry.isSymmetric : false`. -/
def liftIsSymmetric (geometry : Option GeomRecord) : Prop :=
  match geometry with
  | some g => g.isSymmetric
  | none => False

/-- `geometry ? geometry.teAngle : 30`. -/
def liftTeAngle (geometry : Option GeomRecord) : ℝ :=
  match geometry with
  | some g => g.teAngle
  | none => 30

/-- `calculateLiftCoefficient(shapeType, reynolds, aspectRatio,
angleDegrees, solidity, geometry)`: lift coefficient with early returns,
per-shape models, stall blending and low-Reynolds correction. -/
def calculateLiftCoefficient (shapeType : ShapeType)
    (reynolds aspectRatio angleDegrees solidity : ℝ)
    (geometry : Option GeomRecord) : ℝ :=
  let angleRad := angleDegrees * Real.pi / 180
  let camber := liftCamber geometry
  let thickness := liftThickness geometry
  let teAngle := liftTeAngle geometry
  let canLift := shapeType = ShapeType.streamlined ∨ aspectRatio > 2.0 ∨
    aspectRatio < 0.5 ∨ |camber| > 0.001
  if ¬canLift ∧ |angleDegrees| < 10 then 0
  else if liftIsSymmetric geometry ∧ |angleDegrees| < 0.5 then 0
  else
    let cl :=
      match shapeType with
      | ShapeType.circular =>
          if |angleDegrees| > 5 then 0.3 * Real.sin (2 * angleRad) else 0
      | ShapeType.streamlined =>
          let alphaL0 := if liftIsSymmetric geometry then 0 else -100 * camber
          let effectiveAngle := angleDegrees - alphaL0
          let effectiveAngleRad := effectiveAngle * Real.pi / 180
          let kuttaFactor :=
            if teAngle > 20 then max 0.5 (1.0 - (teAngle - 20) / 100) else 1.0
          let arCorrection := aspectRatio / (aspectRatio + 2)
          let liftSlope := 0.1 * 0.9 * arCorrection * kuttaFactor
          let stallAngle := 12 + thickness * 20
          let x := |effectiveAngle| / stallAngle
          if x < 0.8 then liftSlope * effectiveAngle
          else
            let preStallLift := liftSlope * effectiveAngle
            let separatedLift := 1.0 * Real.sin (2 * effectiveAngleRad)
            if x < 1.5 then
              let t := (x - 0.8) / (1.5 - 0.8)
              let blend := (1 + Real.cos (Real.pi * t)) / 2
              let peakBoost := 0.1 * Real.sin (Real.pi * t)
              preStallLift * blend + separatedLift * (1 - blend) + peakBoost
            else separatedLift
      | ShapeType.rectangular =>
          let cl0 :=
            if |angleDegrees| < 25 then 1.1 * Real.sin (2 * angleRad)
            else 1.0 * Real.sin angleRad
          if camber ≠ 0 ∧ ¬liftIsSymmetric geometry then cl0 + camber * 2.0 else cl0
      | ShapeType.bluff =>
          let cl0 := 0.5 * Real.sin (2 * angleRad)
          if solidity < 0.5 then cl0 * 0.5 else cl0
    if reynolds < 100000 then
      let factor := 0.4 + 0.6 * (Real.logb 10 (max 1 reynolds) / 5.0)
      cl * min 1.0 (max 0.1 factor)
    else cl

/-- `calculateStrouhal(shapeType, reynolds)`. -/
def calculateStrouhal (shapeType : ShapeType) (reynolds : ℝ) : ℝ :=
  match shapeType with
  | ShapeType.circular => if reynolds < 100 then 0.1 else 0.2
  | ShapeType.rectangular => 0.15
  | ShapeType.streamlined => 0.1
  | ShapeType.bluff => 0.18

/-- `AIR_DYNAMIC_VISCOSITY` (Pa·s at 15°C). -/
def AIR_DYNAMIC_VISCOSITY : ℝ := 1.81e-5

/-- `PIXELS_PER_METER` scale factor (100 px = 1 m). -/
def PIXELS_PER_METER : ℝ := 100

/-- First normalization loop of `calculateDrag`:
`while (angleDegrees > 180) angleDegrees -= 360`. -/
def normLoopDown (a : ℝ) : ℝ :=
  if h : a > 180 then normLoopDown (a - 360) else a
termination_by (⌈(a - 180) / 360⌉).toNat
decreasing_by
  have h1 : (0 : ℝ) < (a - 180) / 360 := by
    apply div_pos <;> linarith
  have h2 : (0 : ℤ) < ⌈(a - 180) / 360⌉ := Int.ceil_pos.mpr h1
  have h3 : ⌈(a - 360 - 180) / 360⌉ = ⌈(a - 180) / 360⌉ - 1 := by
    rw [show (a - 360 - 180) / 360 = (a - 180) / 360 - 1 by ring, Int.ceil_sub_one]
  rw [h3]
  omega

/-- Second normalization loop of `calculateDrag`:
`while (angleDegrees < -180) angleDegrees += 360`. -/
def normLoopUp (a : ℝ) : ℝ :=
  if h : a < -180 then normLoopUp (a + 360) else a
termination_by (⌈(-180 - a) / 360⌉).toNat
decreasing_by
  have h1 : (0 : ℝ) < (-180 - a) / 360 := by
    apply div_pos <;> linarith
  have h2 : (0 : ℤ) < ⌈(-180 - a) / 360⌉ := Int.ceil_pos.mpr h1
  have h3 : ⌈(-180 - (a + 360)) / 360⌉ = ⌈(-180 - a) / 360⌉ - 1 := by
    rw [show (-180 - (a + 360)) / 360 = (-180 - a) / 360 - 1 by ring, Int.ceil_sub_one]
  rw [h3]
  omega

/-- The angle normalization of `calculateDrag` (both loops in order). -/
def normalizeAngle (a : ℝ) : ℝ := normLoopUp (normLoopDown a)

/-- The flow parameters object `{ windSpeed, angle, airDensity }`;
`angle` and `airDensity` may be absent. -/
structure FlowParams where
  windSpeed : ℝ
  angle : Option ℝ
  airDensity : Option ℝ

/-- `params.airDensity || 1.225`: the default kicks in when the property
is absent or equal to `0` (the JS falsy number). -/
def solveDensity (params : FlowParams) : ℝ :=
  match params.airDensity with
  | some d => if d = 0 then 1.225 else d
  | none => 1.225

/-- `params.angle || 0`: `0` when absent (and `0 || 0` is `0`). -/
def solveRawAngle (params : FlowParams) : ℝ :=
  match params.angle with
  | some a => if a = 0 then 0 else a
  | none => 0

/-- The normalized angle of attack actually used by `calculateDrag`. -/
def solveAngle (params : FlowParams) : ℝ := normalizeAngle (solveRawAngle params)

/-- The result record of `calculateDrag`, including the `debug`
diagnostics, all at full precision (the `toFixed`/`parseFloat` display
rounding of the JS return is formatting only and is not modelled). -/
structure DragResult where
  cd : ℝ
  cl : ℝ
  dragForce : ℝ
  liftForce : ℝ
  area : ℝ
  referenceArea : ℝ
  reynolds : ℝ
  shapeType : ShapeType
  vortexFrequency : ℝ
  strouhal : ℝ
  pressureDrag : ℝ
  frictionDrag : ℝ
  velocityMs : ℝ
  widthM : ℝ
  heightM : ℝ
  characteristicLength : ℝ
  aspectRatio : ℝ
  solidity : ℝ
  camber : ℝ
  thickness : ℝ
  alphaL0 : ℝ

/-- `calculateDrag(points, params)`: the aerodynamic solver.  Returns
`none` exactly when the JS function throws: building the `debug` object
evaluates `geometry.camber.toFixed(4)`, a `TypeError` when the analyzer
returned the degenerate record (whose `camber` property is absent). -/
def calculateDrag (points : List Point) (params : FlowParams) : Option DragResult :=
  let velocityMs := params.windSpeed / 3.6
  let rho := solveDensity params
  let angleDegrees := solveAngle params
  let rotatedPoints := rotatePoints points angleDegrees
  let bounds := getBoundingBox rotatedPoints
  let heightM := bounds.height / PIXELS_PER_METER
  let widthM := bounds.width / PIXELS_PER_METER
  let frontalArea := heightM * 1.0
  let referenceArea := max heightM widthM * 1.0
  let polygonArea := calculatePolygonArea points
  let boxArea := bounds.width * bounds.height
  let solidity := if boxArea > 0 then polygonArea / boxArea else 1.0
  let aspectRatio := if bounds.height > 0 then bounds.width / bounds.height else 1.0
  let shapeType := classifyShape points bounds solidity
  let characteristicLength :=
    if shapeType = ShapeType.circular then bounds.width / PIXELS_PER_METER
    else if shapeType = ShapeType.streamlined then bounds.width / PIXELS_PER_METER
    else Real.sqrt (polygonArea / (PIXELS_PER_METER * PIXELS_PER_METER))
  let reynolds := calculateReynolds velocityMs characteristicLength rho AIR_DYNAMIC_VISCOSITY
  let geometry := analyzeGeometry points (getBoundingBox points)
  let cd := calculateDragCoefficient shapeType reynolds aspectRatio solidity angleDegrees none
  let cl := calculateLiftCoefficient shapeType reynolds aspectRatio angleDegrees solidity
    (some geometry)
  let dragForce := 0.5 * rho * velocityMs * velocityMs * frontalArea * cd
  let liftForce := 0.5 * rho * velocityMs * velocityMs * referenceArea * cl
  let strouhal := calculateStrouhal shapeType reynolds
  let vortexFrequency :=
    if characteristicLength > 0 then strouhal * velocityMs / characteristicLength else 0
  let pressureDragRatio :=
    if shapeType = ShapeType.streamlined then 0.6
    else if shapeType = ShapeType.circular then 0.85
    else 0.9
  match geometry.camber with
  | none => none
  | some camberVal =>
      some
        { cd := cd, cl := cl, dragForce := dragForce, liftForce := liftForce,
          area := frontalArea, referenceArea := referenceArea, reynolds := reynolds,
          shapeType := shapeType, vortexFrequency := vortexFrequency,
          strouhal := strouhal, pressureDrag := dragForce * pressureDragRatio,
          frictionDrag := dragForce * (1 - pressureDragRatio),
          velocityMs := velocityMs, widthM := widthM, heightM := heightM,
          characteristicLength := characteristicLength, aspectRatio := aspectRatio,
          solidity := solidity, camber := camberVal, thickness := geometry.thickness,
          alphaL0 := -100 * camberVal }

/-- The request body of `POST /api/simulate`:
`{ shape: { points }, parameters }`, each part possibly absent. -/
structure SimRequest where
  shapePoints : Option (Option (List Point))
  parameters : Option FlowParams

/-- The three response classes of the simulate route: HTTP 400 from the
input presence check, HTTP 500 from the catch block, HTTP 200 with the
physics result. -/
inductive ApiResponse where
  | badRequest
  | serverError
  | okResult (r : DragResult)

/-- The `POST /api/simulate` handler: responds 400 when `shape`,
`shape.points` or `parameters` is absent (a present array is truthy even
when empty), otherwise runs `calculateDrag`, converting a thrown error
into a 500. -/
def simulateRoute (req : SimRequest) : ApiResponse :=
  match req.shapePoints, req.parameters with
  | some (some pts), some params =>
      match calculateDrag pts params with
      | some r => ApiResponse.okResult r
      | none => ApiResponse.serverError
  | _, _ => ApiResponse.badRequest

/-- Fixture: a 3-point degenerate polygon whose vertices share one x
coordinate (zero chord). -/
def vertSeg : List Point := [(0, 0), (0, 50), (0, 100)]

/-- Fixture: a streamlined kite polygon (aspect ratio 3.5) whose
trailing-edge vertex has a 90-degree included angle. -/
def kitePoly : List Point := [(0, 0), (6, 1), (7, 0), (6, -1)]

/-- Fixture: a 4×1 axis-aligned rectangle. -/
def rect41 : List Point := [(0, 0), (4, 0), (4, 1), (0, 1)]

/-- Fixture: a 100×100 axis-aligned square. -/
def square100 : List Point := [(0, 0), (100, 0), (100, 100), (0, 100)]

/-- Fixture: a 2-point degenerate polygon with a nonzero chord. -/
def seg2 : List Point := [(0, 0), (10, 0)]

/-! ### Helper lemmas -/

/-- Rotating by 0 degrees is the identity on the point list. -/
theorem rotatePoints_zero (pts : List Point) : rotatePoints pts 0 = pts := by
  unfold rotatePoints affRot
  simp

/-- Exit form of the first normalization loop. -/
theorem normLoopDown_eq_self {a : ℝ} (h : a ≤ 180) : normLoopDown a = a := by
  rw [normLoopDown, dif_neg (not_lt.mpr h)]

/-- Exit form of the second normalization loop. -/
theorem normLoopUp_eq_self {a : ℝ} (h : -180 ≤ a) : normLoopUp a = a := by
  rw [normLoopUp, dif_neg (not_lt.mpr h)]

/-- Full behaviour of the first loop: the result is at most 180, it is
either the input itself or has been pulled above -180, and it differs
from the input by a whole number of turns. -/
theorem normLoopDown_spec (a : ℝ) :
    normLoopDown a ≤ 180 ∧ (normLoopDown a = a ∨ -180 < normLoopDown a) ∧
      ∃ k : ℤ, normLoopDown a = a - 360 * k := by
  rw [normLoopDown]
  split
  next h =>
    obtain ⟨h1, h2, k, hk⟩ := normLoopDown_spec (a - 360)
    refine ⟨h1, ?_, k + 1, by push_cast; linarith⟩
    rcases h2 with h2 | h2
    · right; rw [h2]; linarith
    · right; exact h2
  next h =>
    exact ⟨le_of_not_lt h, Or.inl rfl, 0, by ring⟩
termination_by (⌈(a - 180) / 360⌉).toNat
decreasing_by
  have h1 : (0 : ℝ) < (a - 180) / 360 := by
    apply div_pos <;> linarith
  have h2 : (0 : ℤ) < ⌈(a - 180) / 360⌉ := Int.ceil_pos.mpr h1
  have h3 : ⌈(a - 360 - 180) / 360⌉ = ⌈(a - 180) / 360⌉ - 1 := by
    rw [show (a - 360 - 180) / 360 = (a - 180) / 360 - 1 by ring, Int.ceil_sub_one]
  rw [h3]
  omega

/-- Full behaviour of the second loop. -/
theorem normLoopUp_spec (a : ℝ) :
    -180 ≤ normLoopUp a ∧ (normLoopUp a = a ∨ normLoopUp a < 180) ∧
      ∃ k : ℤ, normLoopUp a = a + 360 * k := by
  rw [normLoopUp]
  split
  next h =>
    obtain ⟨h1, h2, k, hk⟩ := normLoopUp_spec (a + 360)
    refine ⟨h1, ?_, k + 1, by push_cast; linarith⟩
    rcases h2 with h2 | h2
    · right; rw [h2]; linarith
    · right; exact h2
  next h =>
    exact ⟨le_of_not_lt h, Or.inl rfl, 0, by ring⟩
termination_by (⌈(-180 - a) / 360⌉).toNat
decreasing_by
  have h1 : (0 : ℝ) < (-180 - a) / 360 := by
    apply div_pos <;> linarith
  have h2 : (0 : ℤ) < ⌈(-180 - a) / 360⌉ := Int.ceil_pos.mpr h1
  have h3 : ⌈(-180 - (a + 360)) / 360⌉ = ⌈(-180 - a) / 360⌉ - 1 := by
    rw [show (-180 - (a + 360)) / 360 = (-180 - a) / 360 - 1 by ring, Int.ceil_sub_one]
  rw [h3]
  omega

/-- The combined normalization lands in the closed interval
`[-180, 180]` and shifts the input by a whole number of turns. -/
theorem normalizeAngle_spec (a : ℝ) :
    -180 ≤ normalizeAngle a ∧ normalizeAngle a ≤ 180 ∧
      ∃ k : ℤ, normalizeAngle a = a - 360 * k := by
  obtain ⟨hd1, hd2, kd, hkd⟩ := normLoopDown_spec a
  obtain ⟨hu1, hu2, ku, hku⟩ := normLoopUp_spec (normLoopDown a)
  unfold normalizeAngle
  refine ⟨hu1, ?_, kd - ku, ?_⟩
  · rcases hu2 with h | h
    · rw [h]; exact hd1
    · exact le_of_lt h
  · rw [hku, hkd]; push_cast; ring

/-- `normalizeAngle` fixes anything already in `[-180, 180]`. -/
theorem normalizeAngle_eq_self {a : ℝ} (h1 : -180 ≤ a) (h2 : a ≤ 180) :
    normalizeAngle a = a := by
  unfold normalizeAngle
  rw [normLoopDown_eq_self h2, normLoopUp_eq_self h1]

/-- `params.angle || 0` is the supplied angle when it is present. -/
theorem solveRawAngle_some (ws : ℝ) (d : Option ℝ) (a : ℝ) :
    solveRawAngle ⟨ws, some a, d⟩ = a := by
  show (if a = 0 then (0 : ℝ) else a) = a
  split
  next h => exact h.symm
  next => rfl

/-! ### Claim theorems -/

/-- C5: for every shape type, Reynolds number, aspect ratio, solidity,
angle of attack and geometry record, the value returned by
`calculateDragCoefficient` lies in the closed interval `[0.01, 2.5]`. -/
theorem dragCoefficient_in_clamp_interval (shapeType : ShapeType)
    (reynolds aspectRatio solidity angleDegrees : ℝ) (geometry : Option GeomRecord) :
    0.01 ≤ calculateDragCoefficient shapeType reynolds aspectRatio solidity
        angleDegrees geometry ∧
      calculateDragCoefficient shapeType reynolds aspectRatio solidity
        angleDegrees geometry ≤ 2.5 := by
  unfold calculateDragCoefficient
  exact ⟨le_max_left _ _, max_le (by norm_num) (min_le_right _ _)⟩

/-- C7: for a circular shape at Reynolds number exactly `3.5e5` and angle
of attack 0, `calculateDragCoefficient` returns exactly `0.75`, the
midpoint of the drag-crisis sigmoid blend, for any aspect ratio, solidity
and geometry. -/
theorem circular_dragCrisis_midpoint (aspectRatio solidity : ℝ)
    (geometry : Option GeomRecord) :
    calculateDragCoefficient ShapeType.circular 3.5e5 aspectRatio solidity 0
      geometry = 0.75 := by
  unfold calculateDragCoefficient
  norm_num [Real.exp_zero, min_def, max_def]

/-- C6: whenever the geometry record reports `isSymmetric` and the angle
of attack satisfies `|angle| < 0.5` degrees, `calculateLiftCoefficient`
returns exactly 0, for all shape types, Reynolds numbers, aspect ratios
and solidities. -/
theorem lift_zero_for_symmetric_small_angle (shapeType : ShapeType)
    (reynolds aspectRatio solidity angleDegrees : ℝ) (g : GeomRecord)
    (hsym : g.isSymmetric) (hang : |angleDegrees| < 0.5) :
    calculateLiftCoefficient shapeType reynolds aspectRatio angleDegrees solidity
      (some g) = 0 := by
  simp only [calculateLiftCoefficient]
  split
  next => rfl
  next =>
    rw [if_pos (show liftIsSymmetric (some g) ∧ |angleDegrees| < 0.5 from ⟨hsym, hang⟩)]

/-- Witness for C6: a symmetric streamlined record at angle 0 produces
zero lift. -/
theorem lift_zero_for_symmetric_small_angle_witness :
    calculateLiftCoefficient ShapeType.streamlined 200000 5 0 0.6
      (some ⟨some 0, none, 0.12, True, 10, 0.05⟩) = 0 :=
  lift_zero_for_symmetric_small_angle ShapeType.streamlined 200000 5 0.6 0
    ⟨some 0, none, 0.12, True, 10, 0.05⟩ trivial (by norm_num)

/-- C8 counterexample: the input angle `-180` is left at `-180` by the
solver's normalization, which is outside the claimed half-open interval
`(-180, 180]`. -/
theorem solveAngle_neg180_outside_open_interval :
    solveAngle ⟨0, some (-180), none⟩ = -180 ∧
      ¬(-180 < solveAngle ⟨0, some (-180), none⟩) := by
  have h : solveAngle ⟨0, some (-180), none⟩ = -180 := by
    unfold solveAngle
    rw [solveRawAngle_some, normalizeAngle_eq_self (by norm_num) (by norm_num)]
  refine ⟨h, ?_⟩
  rw [h]
  norm_num

/-- C8 amended: for every finite input angle, the solver normalizes it
into the closed interval `[-180, 180]`, differing from the input by an
integer multiple of 360 degrees. -/
theorem solveAngle_in_closed_interval (ws : ℝ) (d : Option ℝ) (a : ℝ) :
    -180 ≤ solveAngle ⟨ws, some a, d⟩ ∧ solveAngle ⟨ws, some a, d⟩ ≤ 180 ∧
      ∃ k : ℤ, solveAngle ⟨ws, some a, d⟩ = a - 360 * k := by
  unfold solveAngle
  rw [solveRawAngle_some]
  exact normalizeAngle_spec a

/-- The solver reads its parameters only through `windSpeed`,
`solveDensity` and `solveRawAngle`; parameter records agreeing on those
three produce identical results. -/
theorem calculateDrag_params_congr (pts : List Point) (p q : FlowParams)
    (h1 : p.windSpeed = q.windSpeed) (h2 : solveDensity p = solveDensity q)
    (h3 : solveRawAngle p = solveRawAngle q) :
    calculateDrag pts p = calculateDrag pts q := by
  unfold calculateDrag solveAngle
  rw [h1, h2, h3]

/-- A present, nonzero `airDensity` is used as supplied. -/
theorem solveDensity_some_ne (ws : ℝ) (ang : Option ℝ) {d : ℝ} (h : d ≠ 0) :
    solveDensity ⟨ws, ang, some d⟩ = d := by
  show (if d = 0 then (1.225 : ℝ) else d) = d
  rw [if_neg h]

/-- C10: an absent or zero `airDensity` is silently replaced by the
default `1.225` (and an absent angle is treated as angle 0); every
downstream computation of the solver then behaves exactly as if the
substituted value had been supplied. -/
theorem falsy_params_get_defaults (pts : List Point) (ws : ℝ)
    (ang : Option ℝ) (d : Option ℝ) :
    solveDensity ⟨ws, ang, none⟩ = 1.225 ∧
      solveDensity ⟨ws, ang, some 0⟩ = 1.225 ∧
      calculateDrag pts ⟨ws, ang, none⟩ = calculateDrag pts ⟨ws, ang, some 1.225⟩ ∧
      calculateDrag pts ⟨ws, ang, some 0⟩ = calculateDrag pts ⟨ws, ang, some 1.225⟩ ∧
      solveRawAngle ⟨ws, none, d⟩ = 0 ∧
      calculateDrag pts ⟨ws, none, d⟩ = calculateDrag pts ⟨ws, some 0, d⟩ := by
  have h225 : solveDensity ⟨ws, ang, some 1.225⟩ = 1.225 :=
    solveDensity_some_ne ws ang (by norm_num)
  have hzero : solveDensity ⟨ws, ang, some 0⟩ = 1.225 := by
    show (if (0 : ℝ) = 0 then 1.225 else 0) = 1.225
    rw [if_pos rfl]
  have hang : solveRawAngle ⟨ws, none, d⟩ = solveRawAngle ⟨ws, some 0, d⟩ := by
    rw [solveRawAngle_some]
    rfl
  refine ⟨rfl, hzero, ?_, ?_, rfl, ?_⟩
  · exact calculateDrag_params_congr pts _ _ rfl (h225.symm) rfl
  · exact calculateDrag_params_congr pts _ _ rfl (hzero.trans h225.symm) rfl
  · exact calculateDrag_params_congr pts _ _ rfl rfl hang

/-! ### Shoelace-area invariance (C9) -/

/-- Unfolding step of `pairSum`. -/
theorem pairSum_cons_cons (a b : Point) (l : List Point) :
    pairSum (a :: b :: l) = cross a b + pairSum (b :: l) := rfl

/-- `pairSum` as an indexed sum over adjacent positions. -/
theorem pairSum_eq_sum_range (l : List Point) :
    pairSum l =
      ∑ i ∈ Finset.range (l.length - 1),
        cross (l.getD i (0, 0)) (l.getD (i + 1) (0, 0)) := by
  induction l with
  | nil => simp [pairSum]
  | cons a t ih =>
    cases t with
    | nil => simp [pairSum]
    | cons b t2 =>
      rw [pairSum_cons_cons, ih]
      have hlen : (a :: b :: t2).length - 1 = ((b :: t2).length - 1) + 1 := by simp
      rw [hlen, Finset.sum_range_succ']
      simp only [List.getD_cons_succ, List.getD_cons_zero]
      exact add_comm _ _

/-- Appending one point to a nonempty path adds one `cross` term
(cons form, proved by induction). -/
theorem pairSum_append_singleton_cons (a : Point) (t : List Point) (x : Point) :
    pairSum ((a :: t) ++ [x]) =
      pairSum (a :: t) + cross ((a :: t).getLast (List.cons_ne_nil a t)) x := by
  induction t generalizing a with
  | nil => simp [pairSum, pairSum_cons_cons]
  | cons b t2 ih =>
    rw [show (a :: b :: t2) ++ [x] = a :: ((b :: t2) ++ [x]) from rfl]
    rw [show a :: ((b :: t2) ++ [x]) = a :: b :: (t2 ++ [x]) from rfl]
    rw [pairSum_cons_cons]
    rw [show b :: (t2 ++ [x]) = (b :: t2) ++ [x] from rfl]
    rw [ih b, pairSum_cons_cons, List.getLast_cons (List.cons_ne_nil b t2)]
    ring

/-- Appending one point to a nonempty path adds one `cross` term. -/
theorem pairSum_append_singleton (l : List Point) (hl : l ≠ []) (x : Point) :
    pairSum (l ++ [x]) = pairSum l + cross (l.getLast hl) x := by
  obtain ⟨a, t, rfl⟩ : ∃ a t, l = a :: t := by
    cases l with
    | nil => exact absurd rfl hl
    | cons a t => exact ⟨a, t, rfl⟩
  exact pairSum_append_singleton_cons a t x

/-- Reversing a path negates `pairSum`. -/
theorem pairSum_reverse (l : List Point) : pairSum l.reverse = -pairSum l := by
  induction l with
  | nil => simp [pairSum]
  | cons a t ih =>
    cases t with
    | nil => simp [pairSum]
    | cons b t2 =>
      rw [List.reverse_cons]
      have hne : (b :: t2).reverse ≠ [] := by simp
      rw [pairSum_append_singleton _ hne a, ih]
      rw [List.getLast_reverse]
      rw [pairSum_cons_cons]
      simp only [List.head_cons]
      unfold cross
      ring

/-- The shoelace sum of a nonempty list is the open-path sum plus the
wrap-around term from the last point back to the first. -/
theorem shoelaceSum_decomp (l : List Point) (h : l ≠ []) :
    shoelaceSum l = pairSum l + cross (l.getLast h) (l.head h) := by
  obtain ⟨a, t, rfl⟩ : ∃ a t, l = a :: t := by
    cases l with
    | nil => exact absurd rfl h
    | cons a t => exact ⟨a, t, rfl⟩
  unfold shoelaceSum
  rw [show (a :: t).length = t.length + 1 from rfl, Finset.sum_range_succ]
  have hterm : ∀ i ∈ Finset.range t.length,
      cross ((a :: t).getD i (0, 0)) ((a :: t).getD ((i + 1) % (t.length + 1)) (0, 0)) =
        cross ((a :: t).getD i (0, 0)) ((a :: t).getD (i + 1) (0, 0)) := by
    intro i hi
    rw [Nat.mod_eq_of_lt (Nat.succ_lt_succ (Finset.mem_range.mp hi))]
  rw [Finset.sum_congr rfl hterm, Nat.mod_self, pairSum_eq_sum_range]
  simp only [List.length_cons, Nat.add_sub_cancel, List.head_cons]
  congr 1
  rw [List.getD_eq_getElem _ _ (by simp), List.getD_eq_getElem _ _ (by simp),
    List.getLast_eq_getElem]
  simp

/-- Reversing the point list negates the shoelace sum. -/
theorem shoelaceSum_reverse (l : List Point) :
    shoelaceSum l.reverse = -shoelaceSum l := by
  cases l with
  | nil => simp [shoelaceSum]
  | cons a t =>
    have h1 : (a :: t) ≠ [] := List.cons_ne_nil a t
    have h2 : (a :: t).reverse ≠ [] := by simp
    rw [shoelaceSum_decomp _ h2, shoelaceSum_decomp _ h1, pairSum_reverse,
      List.getLast_reverse, List.head_reverse]
    unfold cross
    ring

/-- C9 (first half as a standalone fact): `calculatePolygonArea` is
invariant under reversal of the point order. -/
theorem polygonArea_reverse (l : List Point) :
    calculatePolygonArea l.reverse = calculatePolygonArea l := by
  unfold calculatePolygonArea
  rw [shoelaceSum_reverse, abs_neg]

/-- Key algebraic identity: the rotation `affRot` changes a `cross` term
by a telescoping difference (valid whenever `c² + s² = 1`). -/
theorem cross_affRot (cen : Point) (c s : ℝ) (hcs : c ^ 2 + s ^ 2 = 1) (a b : Point) :
    cross (affRot cen c s a) (affRot cen c s b) =
      cross a b + (cross cen (affRot cen c s b) - cross cen b)
        - (cross cen (affRot cen c s a) - cross cen a) := by
  unfold cross affRot
  linear_combination
    ((a.1 - cen.1) * (b.2 - cen.2) - (a.2 - cen.2) * (b.1 - cen.1)) * hcs

/-- Telescoping of the rotated open-path sum. -/
theorem pairSum_map_affRot (cen : Point) (c s : ℝ) (hcs : c ^ 2 + s ^ 2 = 1)
    (t : List Point) : ∀ a : Point,
    pairSum ((a :: t).map (affRot cen c s)) =
      pairSum (a :: t)
        + (cross cen (affRot cen c s ((a :: t).getLast (List.cons_ne_nil a t)))
            - cross cen ((a :: t).getLast (List.cons_ne_nil a t)))
        - (cross cen (affRot cen c s a) - cross cen a) := by
  induction t with
  | nil =>
    intro a
    simp [pairSum]
  | cons b t2 ih =>
    intro a
    rw [show (a :: b :: t2).map (affRot cen c s) =
      affRot cen c s a :: ((b :: t2).map (affRot cen c s)) from rfl]
    rw [show (b :: t2).map (affRot cen c s) =
      affRot cen c s b :: (t2.map (affRot cen c s)) from rfl]
    rw [pairSum_cons_cons]
    rw [show affRot cen c s b :: (t2.map (affRot cen c s)) =
      (b :: t2).map (affRot cen c s) from rfl]
    rw [ih b, cross_affRot cen c s hcs a b, pairSum_cons_cons,
      List.getLast_cons (List.cons_ne_nil b t2)]
    ring

/-- A closed polygon's shoelace sum is invariant under `affRot` whenever
`c² + s² = 1`. -/
theorem shoelaceSum_map_affRot (cen : Point) (c s : ℝ) (hcs : c ^ 2 + s ^ 2 = 1)
    (l : List Point) :
    shoelaceSum (l.map (affRot cen c s)) = shoelaceSum l := by
  cases l with
  | nil => rfl
  | cons a t =>
    have h1 : (a :: t) ≠ [] := List.cons_ne_nil a t
    have h2 : (a :: t).map (affRot cen c s) ≠ [] := by simp
    rw [shoelaceSum_decomp _ h2, shoelaceSum_decomp _ h1]
    rw [List.getLast_map _ _ h2, List.head_map _ _ h2]
    have h3 : (a :: t).head (by simp) = (a :: t).head h1 := rfl
    have h4 : (a :: t).getLast (by simp) = (a :: t).getLast h1 := rfl
    rw [h3, h4]
    rw [pairSum_map_affRot cen c s hcs t a,
      cross_affRot cen c s hcs ((a :: t).getLast h1) ((a :: t).head h1)]
    simp only [List.head_cons]
    ring

/-- C9 (second half as a standalone fact): `calculatePolygonArea` is
invariant under `rotatePoints` by any angle. -/
theorem polygonArea_rotate (l : List Point) (θ : ℝ) :
    calculatePolygonArea (rotatePoints l θ) = calculatePolygonArea l := by
  unfold calculatePolygonArea rotatePoints
  rw [shoelaceSum_map_affRot _ _ _ (Real.cos_sq_add_sin_sq _)]

/-- C9: for every point list with at least 3 points, `calculatePolygonArea`
is unchanged by reversing the point order and by rotating the polygon
about its centroid through any angle (exact over real arithmetic). -/
theorem polygonArea_reverse_rotate_invariant (pts : List Point)
    (h : 3 ≤ pts.length) :
    calculatePolygonArea pts.reverse = calculatePolygonArea pts ∧
      ∀ θ : ℝ, calculatePolygonArea (rotatePoints pts θ) = calculatePolygonArea pts :=
  ⟨polygonArea_reverse pts, fun θ => polygonArea_rotate pts θ⟩

/-- Witness for C9 at the concrete triangle `[(0,0),(1,0),(0,1)]`. -/
theorem polygonArea_reverse_rotate_invariant_witness :
    calculatePolygonArea ([((0 : ℝ), (0 : ℝ)), (1, 0), (0, 1)] : List Point).reverse =
        calculatePolygonArea ([((0 : ℝ), (0 : ℝ)), (1, 0), (0, 1)] : List Point) ∧
      ∀ θ : ℝ,
        calculatePolygonArea
            (rotatePoints ([((0 : ℝ), (0 : ℝ)), (1, 0), (0, 1)] : List Point) θ) =
          calculatePolygonArea ([((0 : ℝ), (0 : ℝ)), (1, 0), (0, 1)] : List Point) :=
  polygonArea_reverse_rotate_invariant _ (by norm_num)

/-! ### Degenerate-geometry and route behaviour (C3, C4) -/

/-- A zero chord takes the analyzer's degenerate early return. -/
theorem analyzeGeometry_degenerate (points : List Point) (bounds : Bounds)
    (h : bounds.maxX - bounds.minX = 0) :
    analyzeGeometry points bounds =
      { camber := none, maxCamber := some 0, thickness := 0,
        isSymmetric := True, teAngle := 180, leRadius := 0 } := by
  simp only [analyzeGeometry]
  rw [if_pos h]

/-- A nonzero chord takes the analyzer's main path, whose record carries
a present `camber` property. -/
theorem analyzeGeometry_camber_isSome (points : List Point) (bounds : Bounds)
    (h : bounds.maxX - bounds.minX ≠ 0) :
    ∃ c, (analyzeGeometry points bounds).camber = some c := by
  simp only [analyzeGeometry]
  rw [if_neg h]
  exact ⟨_, rfl⟩

/-- With a nonzero unrotated chord the solver completes and returns a
result record. -/
theorem calculateDrag_some_of_chord_ne (pts : List Point) (params : FlowParams)
    (h : (getBoundingBox pts).maxX - (getBoundingBox pts).minX ≠ 0) :
    ∃ r, calculateDrag pts params = some r := by
  obtain ⟨c, hc⟩ := analyzeGeometry_camber_isSome pts (getBoundingBox pts) h
  simp only [calculateDrag]
  rw [hc]
  exact ⟨_, rfl⟩

/-- Bounding box of the degenerate vertical 3-point polygon. -/
theorem vertSeg_bb : getBoundingBox vertSeg = ⟨0, 100, 0, 0, 0, 100⟩ := by
  unfold vertSeg getBoundingBox
  norm_num [List.foldl, min_def, max_def]

/-- The analyzer's degenerate return on the vertical polygon. -/
theorem vertSeg_geom :
    analyzeGeometry vertSeg (getBoundingBox vertSeg) =
      { camber := none, maxCamber := some 0, thickness := 0,
        isSymmetric := True, teAngle := 180, leRadius := 0 } := by
  rw [vertSeg_bb]
  exact analyzeGeometry_degenerate _ _ (by norm_num)

/-- C3 (code evaluation): on a 3-point polygon with zero chord the
analyzer's degenerate record carries its default under the key
`maxCamber`, leaving the `camber` property absent (so not `camber: 0` as
specified), and the solver then throws (`none`) when the `debug` block
reads `geometry.camber.toFixed(4)` instead of completing normally. -/
theorem degenerate_chord_maxCamber_key_and_solver_throws :
    analyzeGeometry vertSeg (getBoundingBox vertSeg) =
      { camber := none, maxCamber := some 0, thickness := 0,
        isSymmetric := True, teAngle := 180, leRadius := 0 } ∧
      (analyzeGeometry vertSeg (getBoundingBox vertSeg)).camber ≠ some 0 ∧
      calculateDrag vertSeg ⟨50, some 0, some 1.225⟩ = none := by
  refine ⟨vertSeg_geom, ?_, ?_⟩
  · rw [vertSeg_geom]
    simp
  · have hc : (analyzeGeometry vertSeg (getBoundingBox vertSeg)).camber = none := by
      rw [vertSeg_geom]
    simp only [calculateDrag]
    rw [hc]

/-- The 2-point fixture has a nonzero chord. -/
theorem seg2_chord_ne :
    (getBoundingBox seg2).maxX - (getBoundingBox seg2).minX ≠ 0 := by
  unfold seg2 getBoundingBox
  norm_num [List.foldl, min_def, max_def]

/-- C4 counterexample: a request whose polygon has only 2 points passes
the route's validation (which only checks presence of `shape`,
`shape.points` and `parameters`) and yields an HTTP 200 result record —
no structured error is reported. -/
theorem route_accepts_two_point_polygon_counterexample :
    simulateRoute ⟨some (some seg2), some ⟨50, some 0, some 1.225⟩⟩ ≠
        ApiResponse.badRequest ∧
      ∃ r, simulateRoute ⟨some (some seg2), some ⟨50, some 0, some 1.225⟩⟩ =
        ApiResponse.okResult r := by
  obtain ⟨r, hr⟩ := calculateDrag_some_of_chord_ne seg2 ⟨50, some 0, some 1.225⟩
    seg2_chord_ne
  constructor
  · simp only [simulateRoute]
    rw [hr]
    simp
  · refine ⟨r, ?_⟩
    simp only [simulateRoute]
    rw [hr]

/-- C4 amended: the route rejects only requests missing `shape`,
`shape.points` or `parameters`; a polygon with fewer than 3 points is not
detected, and any 2-point polygon whose endpoints have distinct x
coordinates flows through the whole geometric computation and produces a
success response. -/
theorem route_no_point_count_validation (p1 p2 : Point) (params : FlowParams)
    (h : p1.1 ≠ p2.1) :
    ∃ r, simulateRoute ⟨some (some [p1, p2]), some params⟩ =
      ApiResponse.okResult r := by
  have h1 : (getBoundingBox [p1, p2]).maxX = max p1.1 p2.1 := by
    simp [getBoundingBox, List.foldl]
  have h2 : (getBoundingBox [p1, p2]).minX = min p1.1 p2.1 := by
    simp [getBoundingBox, List.foldl]
  have hbb : (getBoundingBox [p1, p2]).maxX - (getBoundingBox [p1, p2]).minX ≠ 0 := by
    rw [h1, h2]
    exact sub_ne_zero_of_ne (ne_of_gt (min_lt_max.mpr h))
  obtain ⟨r, hr⟩ := calculateDrag_some_of_chord_ne [p1, p2] params hbb
  refine ⟨r, ?_⟩
  simp only [simulateRoute]
  rw [hr]

/-- Witness for C4 amended at a concrete 2-point polygon. -/
theorem route_no_point_count_validation_witness :
    ∃ r, simulateRoute ⟨some (some [(((0 : ℝ)), ((0 : ℝ))), (10, 0)]),
        some ⟨50, some 0, some 1.225⟩⟩ = ApiResponse.okResult r :=
  route_no_point_count_validation ((0 : ℝ), (0 : ℝ)) ((10 : ℝ), (0 : ℝ))
    ⟨50, some 0, some 1.225⟩ (by norm_num)

/-! ### Rotated- versus unrotated-box data flow (C1) -/

/-- A supplied angle already inside `[-180, 180]` is used as-is. -/
theorem solveAngle_some (ws : ℝ) (d : Option ℝ) (a : ℝ)
    (h1 : -180 ≤ a) (h2 : a ≤ 180) :
    solveAngle ⟨ws, some a, d⟩ = a := by
  unfold solveAngle
  rw [solveRawAngle_some, normalizeAngle_eq_self h1 h2]

/-- Rotating the 4×1 rectangle by 90 degrees about its centroid. -/
theorem rect41_rot90 :
    rotatePoints rect41 90 = [(2.5, -1.5), (2.5, 2.5), (1.5, 2.5), (1.5, -1.5)] := by
  have hc : Real.cos ((90 : ℝ) * Real.pi / 180) = 0 := by
    rw [show (90 : ℝ) * Real.pi / 180 = Real.pi / 2 by ring, Real.cos_pi_div_two]
  have hs : Real.sin ((90 : ℝ) * Real.pi / 180) = 1 := by
    rw [show (90 : ℝ) * Real.pi / 180 = Real.pi / 2 by ring, Real.sin_pi_div_two]
  unfold rect41 rotatePoints getCentroid affRot
  norm_num [hc, hs]

/-- Bounding box of the rotated rectangle: width and height swap. -/
theorem rect41_rot90_bb :
    getBoundingBox (rotatePoints rect41 90) = ⟨1, 4, 1.5, 2.5, -1.5, 2.5⟩ := by
  rw [rect41_rot90]
  unfold getBoundingBox
  norm_num [List.foldl, min_def, max_def]

/-- Unrotated bounding box of the 4×1 rectangle. -/
theorem rect41_bb : getBoundingBox rect41 = ⟨4, 1, 0, 4, 0, 1⟩ := by
  unfold rect41 getBoundingBox
  norm_num [List.foldl, min_def, max_def]

/-- C1 counterexample: for the 4×1 rectangle at 90 degrees the solver's
`aspectRatio` is `1/4`, the rotated box's width over height, not the
unrotated `4 = width/height` the claim specifies. -/
theorem aspectRatio_uses_rotated_box_counterexample :
    (getBoundingBox rect41).width / (getBoundingBox rect41).height = 4 ∧
      ∃ r, calculateDrag rect41 ⟨50, some 90, some 1.225⟩ = some r ∧
        r.aspectRatio = 1 / 4 ∧ r.aspectRatio ≠ 4 := by
  constructor
  · rw [rect41_bb]
    norm_num
  · have hang : solveAngle ⟨50, some 90, some 1.225⟩ = 90 :=
      solveAngle_some 50 (some 1.225) 90 (by norm_num) (by norm_num)
    have hcam : ∃ c, (analyzeGeometry rect41 (getBoundingBox rect41)).camber = some c := by
      refine analyzeGeometry_camber_isSome _ _ ?_
      rw [rect41_bb]
      norm_num
    obtain ⟨c, hc⟩ := hcam
    simp only [calculateDrag]
    rw [hc, hang, rect41_rot90_bb]
    refine ⟨_, rfl, ?_, ?_⟩
    · norm_num
    · norm_num

/-- C1 amended: the solver computes `solidity` as the unrotated polygon
area divided by the area of the bounding box of the *rotated* polygon,
`aspectRatio` as the rotated box's width over height, and classifies the
shape from the rotated bounding box together with that solidity. -/
theorem solver_uses_rotated_box (pts : List Point) (params : FlowParams) (b : Bounds)
    (hb : b = getBoundingBox (rotatePoints pts (solveAngle params)))
    (hchord : (getBoundingBox pts).maxX - (getBoundingBox pts).minX ≠ 0)
    (hbox : b.width * b.height > 0) (hh : b.height > 0) :
    ∃ r, calculateDrag pts params = some r ∧
      r.solidity = calculatePolygonArea pts / (b.width * b.height) ∧
      r.aspectRatio = b.width / b.height ∧
      r.shapeType = classifyShape pts b r.solidity := by
  obtain ⟨c, hc⟩ := analyzeGeometry_camber_isSome pts (getBoundingBox pts) hchord
  subst hb
  simp only [calculateDrag]
  rw [hc]
  refine ⟨_, rfl, ?_, ?_, ?_⟩
  · simp only []
    rw [if_pos hbox]
  · simp only []
    rw [if_pos hh]
  · simp only []

/-- Unrotated bounding box of the 100×100 square. -/
theorem square100_bb : getBoundingBox square100 = ⟨100, 100, 0, 100, 0, 100⟩ := by
  unfold square100 getBoundingBox
  norm_num [List.foldl, min_def, max_def]

/-- Witness for C1 amended at the 100×100 square and angle 0. -/
theorem solver_uses_rotated_box_witness :
    ∃ r, calculateDrag square100 ⟨50, some 0, some 1.225⟩ = some r ∧
      r.solidity = calculatePolygonArea square100 / ((100 : ℝ) * 100) ∧
      r.aspectRatio = (100 : ℝ) / 100 ∧
      r.shapeType = classifyShape square100 ⟨100, 100, 0, 100, 0, 100⟩ r.solidity :=
  solver_uses_rotated_box square100 ⟨50, some 0, some 1.225⟩ ⟨100, 100, 0, 100, 0, 100⟩
    (by rw [solveAngle_some _ _ _ (by norm_num) (by norm_num), rotatePoints_zero,
      square100_bb])
    (by rw [square100_bb]; norm_num)
    (by norm_num)
    (by norm_num)

/-! ### The dropped geometry argument in the solver's Cd call (C2) -/

/-- `Math.atan2(1, -1) = 3π/4`. -/
theorem atan2_one_neg_one : atan2 1 (-1) = 3 * Real.pi / 4 := by
  unfold atan2
  rw [if_neg (by norm_num), if_pos (by norm_num : (-1 : ℝ) < 0),
    if_pos (by norm_num : (1 : ℝ) ≥ 0)]
  rw [show (1 : ℝ) / (-1) = -1 by norm_num, Real.arctan_neg, Real.arctan_one]
  ring

/-- `Math.atan2(-1, -1) = -3π/4`. -/
theorem atan2_neg_one_neg_one : atan2 (-1) (-1) = -(3 * Real.pi / 4) := by
  unfold atan2
  rw [if_neg (by norm_num), if_pos (by norm_num : (-1 : ℝ) < 0),
    if_neg (by norm_num : ¬((-1 : ℝ) ≥ 0))]
  rw [show (-1 : ℝ) / (-1) = 1 by norm_num, Real.arctan_one]
  ring

/-- `indexOf` finds the head immediately. -/
theorem indexOfPoint_cons_self (p : Point) (l : List Point) :
    indexOfPoint (p :: l) p = 0 := by
  unfold indexOfPoint
  rw [List.findIdx_cons]
  rw [show (decide (p = p) : Bool) = true from decide_eq_true rfl]
  rfl

/-- `indexOf` skips a non-matching head. -/
theorem indexOfPoint_cons_ne (a p : Point) (l : List Point) (h : a ≠ p) :
    indexOfPoint (a :: l) p = indexOfPoint l p + 1 := by
  unfold indexOfPoint
  rw [List.findIdx_cons]
  rw [show (decide (a = p) : Bool) = false from decide_eq_false h]
  rfl

/-- Bounding box of the kite. -/
theorem kite_bb : getBoundingBox kitePoly = ⟨7, 2, 0, 7, -1, 1⟩ := by
  unfold kitePoly getBoundingBox
  norm_num [List.foldl, min_def, max_def]

/-- The LE scan picks the kite's leftmost vertex. -/
theorem kite_pLE : findClosestX kitePoly 0 = (0, 0) := by
  unfold kitePoly findClosestX
  norm_num [List.foldl]

/-- The TE scan picks the kite's rightmost vertex. -/
theorem kite_pTE : findClosestX kitePoly 7 = (7, 0) := by
  unfold kitePoly findClosestX
  norm_num [List.foldl]

/-- Index of the kite's trailing-edge vertex. -/
theorem kite_idxTE : indexOfPoint kitePoly ((7 : ℝ), (0 : ℝ)) = 2 := by
  unfold kitePoly
  rw [indexOfPoint_cons_ne _ _ _ (by norm_num [Prod.ext_iff]),
    indexOfPoint_cons_ne _ _ _ (by norm_num [Prod.ext_iff]),
    indexOfPoint_cons_self]

/-- The kite's trailing-edge angle is exactly 90 degrees. -/
theorem kite_teAngle : teAngleOf kitePoly ((7 : ℝ), (0 : ℝ)) = 90 := by
  have hraw : |(3 * Real.pi / 4 - -(3 * Real.pi / 4)) * 180 / Real.pi| = 270 := by
    have hpi : Real.pi ≠ 0 := Real.pi_ne_zero
    rw [show (3 * Real.pi / 4 - -(3 * Real.pi / 4)) * 180 / Real.pi =
      270 * (Real.pi / Real.pi) by ring, div_self hpi]
    norm_num
  simp only [teAngleOf]
  rw [kite_idxTE]
  rw [show (2 + kitePoly.length - 1) % kitePoly.length = 1 from rfl]
  rw [show (2 + 1) % kitePoly.length = 3 from rfl]
  rw [show kitePoly.getD 1 (0, 0) = ((6 : ℝ), (1 : ℝ)) from rfl]
  rw [show kitePoly.getD 3 (0, 0) = ((6 : ℝ), (-1 : ℝ)) from rfl]
  rw [show ((6 : ℝ), (1 : ℝ)).2 - (((7 : ℝ), (0 : ℝ)) : Point).2 = 1 by norm_num]
  rw [show ((6 : ℝ), (1 : ℝ)).1 - (((7 : ℝ), (0 : ℝ)) : Point).1 = -1 by norm_num]
  rw [show ((6 : ℝ), (-1 : ℝ)).2 - (((7 : ℝ), (0 : ℝ)) : Point).2 = -1 by norm_num]
  rw [atan2_one_neg_one, atan2_neg_one_neg_one, hraw]
  rw [if_pos (by norm_num : (270 : ℝ) > 180)]
  norm_num

/-- The chord-normal scan over the kite (note the negative `maxLower`,
kept faithful to the JS assignment `maxLower = dist`). -/
theorem kite_scan : chordScan kitePoly ((0 : ℝ), (0 : ℝ)) ((7 : ℝ), (0 : ℝ)) =
    ⟨1, 1, 0, 1, -1⟩ := by
  have h49 : Real.sqrt 49 = 7 := by
    rw [show (49 : ℝ) = 7 ^ 2 by norm_num, Real.sqrt_sq (by norm_num)]
  unfold chordScan kitePoly
  norm_num [List.foldl, scanStep, h49]

/-- The analyzer's camber on the kite is exactly 0 (present as
`camber: 0`). -/
theorem kite_camber :
    (analyzeGeometry kitePoly (getBoundingBox kitePoly)).camber = some 0 := by
  rw [kite_bb]
  simp only [analyzeGeometry]
  rw [if_neg (by norm_num : ¬((7 : ℝ) - 0 = 0))]
  simp only []
  rw [kite_pLE, kite_pTE, kite_scan]
  norm_num [kitePoly]

/-- Shoelace area of the kite. -/
theorem kite_area : calculatePolygonArea kitePoly = 7 := by
  unfold calculatePolygonArea shoelaceSum cross kitePoly
  norm_num [Finset.sum_range_succ, List.getD_cons_zero, List.getD_cons_succ]

/-- The kite is classified streamlined for any solidity at most 0.7. -/
theorem kite_classify (s : ℝ) (hs : s ≤ 0.7) :
    classifyShape kitePoly ⟨7, 2, 0, 7, -1, 1⟩ s = ShapeType.streamlined := by
  simp only [classifyShape]
  split
  next hcon => exact absurd hcon.1 (by intro hlt; linarith)
  next =>
    split
    next hcon => exact absurd hcon.1 (by intro hlt; linarith)
    next =>
      split
      next => rfl
      next hcon => exact absurd (Or.inl (by norm_num)) hcon

/-- Streamlined drag coefficient at angle 0 with the `geometry` argument
omitted (`none`): only the base term survives, and the final clamp is the
identity. -/
theorem streamlined_cd_no_geom (re sol ar : ℝ) (h1 : 1 ≤ ar) :
    calculateDragCoefficient ShapeType.streamlined re ar sol 0 none =
      0.05 + 0.3 / Real.sqrt ar := by
  have har : max ar (1 / ar) = ar := by
    apply max_eq_left
    have hpos : (0 : ℝ) < ar := by linarith
    rw [div_le_iff₀ hpos]
    nlinarith
  have hsqrt1 : 1 ≤ Real.sqrt ar := by
    rw [show (1 : ℝ) = Real.sqrt 1 by rw [Real.sqrt_one]]
    exact Real.sqrt_le_sqrt (by linarith)
  have hspos : 0 < Real.sqrt ar := by linarith
  have hle : 0.3 / Real.sqrt ar ≤ 0.3 := by
    rw [div_le_iff₀ hspos]
    nlinarith
  have hgt : 0 < 0.3 / Real.sqrt ar := by positivity
  simp only [calculateDragCoefficient]
  rw [har]
  rw [if_neg ?hang]
  case hang =>
    rw [show |(0 : ℝ) * Real.pi / 180| = 0 by
      rw [zero_mul, zero_div, abs_zero]]
    exact not_lt.mpr (by positivity)
  rw [if_neg ?hte]
  case hte =>
    intro hcon
    exact False.elim hcon
  rw [if_neg ?hsym]
  case hsym =>
    intro hcon
    exact False.elim hcon.1
  rw [inf_eq_left.mpr (by linarith), sup_eq_right.mpr (by linarith)]

/-- C2 (code evaluation): on the kite the analyzer reports a trailing
edge angle of 90 degrees, which exceeds 20, yet the drag coefficient the
solver produces is exactly the streamlined base `0.05 + 0.3/√(fineness)`
with no TE bluntness increment: `calculateDrag` omits the `geometry`
argument in its call to `calculateDragCoefficient`, so the symmetry
bonus and TE penalty of the specification can never apply. -/
theorem solver_omits_geometry_in_cd_call :
    (analyzeGeometry kitePoly (getBoundingBox kitePoly)).teAngle = 90 ∧
      ∃ r, calculateDrag kitePoly ⟨36, some 0, some 1.225⟩ = some r ∧
        r.cd = 0.05 + 0.3 / Real.sqrt (7 / 2) ∧
        (0.05 + 0.3 / Real.sqrt (7 / 2) : ℝ) ≠
          0.05 + 0.3 / Real.sqrt (7 / 2) + 0.1 * ((90 - 20) / 70) := by
  refine ⟨?_, ?_⟩
  · rw [kite_bb]
    simp only [analyzeGeometry]
    rw [if_neg (by norm_num : ¬((7 : ℝ) - 0 = 0))]
    simp only []
    rw [kite_pTE, kite_teAngle]
  · have hang : solveAngle ⟨36, some 0, some 1.225⟩ = 0 :=
      solveAngle_some _ _ _ (by norm_num) (by norm_num)
    simp only [calculateDrag]
    rw [kite_camber]
    rw [hang, rotatePoints_zero, kite_bb]
    refine ⟨_, rfl, ?_, ?_⟩
    · simp only []
      have hsol : (if ((7 : ℝ) * 2) > 0 then
          calculatePolygonArea kitePoly / ((7 : ℝ) * 2) else (1.0 : ℝ)) = 1 / 2 := by
        rw [if_pos (by norm_num), kite_area]
        norm_num
      have hAR : (if ((2 : ℝ)) > 0 then (7 : ℝ) / 2 else (1.0 : ℝ)) = 7 / 2 := by
        rw [if_pos (by norm_num)]
      rw [hsol, hAR]
      rw [kite_classify _ (by norm_num)]
      rw [streamlined_cd_no_geom _ _ _ (by norm_num)]
    · intro heq
      linarith

end Aero

end
